import Mathlib

/-!
# Verification development for `curse`

Shallow embedding of the policy and configuration code of the `cursed`
service (`src/cursed/main.go`) and of the request functions of the `jinx`
client (`src/jinx/jinxlib/request.go`).

Conventions of the embedding:

* a Go `map[string]string` is an association list without duplicate keys,
  read with `GoMap.get?` and written with `GoMap.set` (`m[k] = v`);
* a Go `error` is its message (`String`); an `error` that may be `nil` is an
  `Option String`;
* a Go `for i := range xs` loop is a recursion over the list `xs`, carrying
  the variables the loop body assigns;
* `time.Duration` is a signed 64-bit count of nanoseconds: an `Int` that every
  arithmetic operation wraps with `wrap64`.
-/

namespace Curse

/-! ## Go maps -/

/-- A Go `map[string]string`: the entries, one per key. -/
abbrev GoMap := List (String × String)

namespace GoMap

/-- The empty map, `make(map[string]string)`. -/
def empty : GoMap := []

/-- The map read `m[k]`, with `none` for an absent key. -/
def get? : GoMap → String → Option String
  | [], _ => none
  | (k', v) :: rest, k => if k' = k then some v else get? rest k

/-- The map write `m[k] = v`: replaces the entry of `k` or adds one. -/
def set : GoMap → String → String → GoMap
  | [], k, v => [(k, v)]
  | (k', v') :: rest, k, v => if k' = k then (k, v) :: rest else (k', v') :: set rest k v

/-- The keys of the map. -/
def keys (m : GoMap) : List String := m.map Prod.fst

/-- The number of entries, `len(m)`. -/
def size (m : GoMap) : Nat := m.length

end GoMap

/-! ## `validateExtensions` (main.go, lines 198-223) -/

/-- The local `validExts` of `validateExtensions`. -/
def validExts : List String :=
  ["permit-X11-forwarding", "permit-agent-forwarding",
   "permit-port-forwarding", "permit-pty", "permit-user-rc"]

/-- The error built by `fmt.Errorf("invalid extension in config: %s", e)`. -/
def invalidExtensionError (e : String) : String :=
  "invalid extension in config: " ++ e

/-- The inner loop `for j := range validExts` for the entry `entry`: on the
first `validExts[j]` equal to the entry it writes `exts[entry] = ""`, sets
`valid` and breaks. Returns `exts` and `valid`. -/
def validateExtensionsInner (entry : String) : List String → GoMap → GoMap × Bool
  | [], exts => (exts, false)
  | v :: vs, exts =>
    if entry = v then (exts.set entry "", true)
    else validateExtensionsInner entry vs exts

/-- The outer loop `for i := range confExts`, carrying `exts` and `errSlice`. -/
def validateExtensionsLoop : List String → GoMap → List String → GoMap × List String
  | [], exts, errSlice => (exts, errSlice)
  | e :: rest, exts, errSlice =>
    let r := validateExtensionsInner e validExts exts
    if !r.2 then
      validateExtensionsLoop rest r.1 (errSlice ++ [invalidExtensionError e])
    else
      validateExtensionsLoop rest r.1 errSlice

/-- The function `validateExtensions`. -/
def validateExtensions (confExts : List String) : GoMap × List String :=
  validateExtensionsLoop confExts GoMap.empty []

/-- The writes `exts[e] = ""` for the entries `e` of a list, in order (used to
describe the map the loops of `validateExtensions` build). -/
def writeAll (exts : GoMap) (entries : List String) : GoMap :=
  entries.foldl (fun m e => m.set e "") exts

/-! ## The username pattern (main.go, line 262)

`regexp.MustCompile` parses the pattern into a syntax tree, which
`MatchString` then searches for in the input. The tree and the search are
embedded for the operators the pattern uses. -/

/-- A parsed regular expression, for the operators of Go's `regexp/syntax`
that the username pattern uses. A character class keeps its ranges as
written and the case-folding flag `(?i)` under which it was parsed. -/
inductive Regex where
  | beginText : Regex
  | endText : Regex
  | charClass (ranges : List (Char × Char)) (foldCase : Bool) : Regex
  | cat (r₁ r₂ : Regex) : Regex
  | rep (r : Regex) (min max : Nat) : Regex

/-- A position of the search: the number of characters already passed and the
characters still ahead. -/
structure Cursor where
  pos : Nat
  rest : List Char
deriving DecidableEq, Repr

/-- The other code points in the orbit of code point `n` under Go's
`unicode.SimpleFold`, for every orbit that contains an ASCII character: the
two cases of each letter, with the Kelvin sign U+212A in the orbit of `k` and
the long s U+017F in the orbit of `s`. Orbits without an ASCII character are
left out: the classes of the pattern hold ASCII characters only. -/
def simpleFoldOrbit (n : Nat) : List Nat :=
  if n = 75 then [107, 8490]
  else if n = 107 then [8490, 75]
  else if n = 8490 then [75, 107]
  else if n = 83 then [115, 383]
  else if n = 115 then [383, 83]
  else if n = 383 then [83, 115]
  else if 65 ≤ n ∧ n ≤ 90 then [n + 32]
  else if 97 ≤ n ∧ n ≤ 122 then [n - 32]
  else []

/-- Whether code point `n` lies in one of the ranges. -/
def inRanges (ranges : List (Char × Char)) (n : Nat) : Bool :=
  ranges.any fun r => decide (r.1.toNat ≤ n) && decide (n ≤ r.2.toNat)

/-- Whether a character class matches the character `c`: `c` lies in one of
the ranges or, under `(?i)`, a character of its case-folding orbit does. -/
def classMatches (ranges : List (Char × Char)) (foldCase : Bool) (c : Char) : Bool :=
  inRanges ranges c.toNat ||
    (foldCase && (simpleFoldOrbit c.toNat).any (inRanges ranges))

/-- The cursors after between `min` and `max` consecutive matches of `m`. -/
def repeatStep (m : Cursor → List Cursor) : Nat → Nat → Cursor → List Cursor
  | min, 0, c => if min = 0 then [c] else []
  | min, max + 1, c =>
    (if min = 0 then [c] else []) ++ (m c).flatMap (repeatStep m (min - 1) max)

/-- Every cursor at which a match of the expression that starts at the given
cursor can end. -/
def Regex.step : Regex → Cursor → List Cursor
  | .beginText, c => if c.pos = 0 then [c] else []
  | .endText, c => if c.rest.isEmpty then [c] else []
  | .charClass ranges foldCase, c =>
    match c.rest with
    | [] => []
    | x :: xs => if classMatches ranges foldCase x then [⟨c.pos + 1, xs⟩] else []
  | .cat r₁ r₂, c => (r₁.step c).flatMap r₂.step
  | .rep r min max, c => repeatStep r.step min max c

/-- Every position of the input, from `n` characters in to the end. -/
def cursorsFrom : Nat → List Char → List Cursor
  | n, [] => [⟨n, []⟩]
  | n, x :: xs => ⟨n, x :: xs⟩ :: cursorsFrom (n + 1) xs

/-- The method `(*Regexp).MatchString`: whether the input contains a match
of the expression, starting at any position. -/
def Regex.MatchString (re : Regex) (s : String) : Bool :=
  (cursorsFrom 0 s.toList).any fun c => !(re.step c).isEmpty

/-- The expression `regexp.MustCompile` builds from the pattern
`(?i)^[a-z_][a-z0-9_-]{1,31}$` that `getConf` stores in `conf.userRegex`. -/
def userRegex : Regex :=
  .cat .beginText
    (.cat (.charClass [('a', 'z'), ('_', '_')] true)
      (.cat (.rep (.charClass [('a', 'z'), ('0', '9'), ('_', '_'), ('-', '-')] true) 1 31)
        .endText))

/-! ## Durations -/

/-- Two's-complement wrap-around of a signed 64-bit integer. -/
def wrap64 (x : Int) : Int := (x + 2 ^ 63) % 2 ^ 64 - 2 ^ 63

/-- The constant `time.Second`, in nanoseconds. -/
def Second : Int := 1000000000

/-- The constant `time.Hour`, in nanoseconds. -/
def Hour : Int := 3600 * Second

/-- The constant expression `100 * 365 * 24 * time.Hour`, which the compiler
evaluates exactly. -/
def hundredYears : Int := 100 * 365 * 24 * Hour

/-! ## The configuration and `getConf` (main.go, lines 18-59 and 225-265) -/

/-- The struct `config`. Byte slices are strings; the fields that hold a
database handle, a signer, a certificate or a private key are left out. -/
structure config where
  authTimeout : Int := 0
  bucketNameFP : String := ""
  bucketNameSSHSerial : String := ""
  bucketNameTLSSerial : String := ""
  dur : Int := 0
  exts : GoMap := []
  keyLifeSpan : Int := 0
  principalMap : GoMap := []
  sshCAFP : String := ""
  tlsDur : Int := 0
  userRegex : Option Regex := none
  Addr : String := ""
  AuthTimeout : Int := 0
  CAKeyFile : String := ""
  DBFile : String := ""
  Duration : Int := 0
  Extensions : List String := []
  ForceCmd : Bool := false
  ForceUserMatch : Bool := false
  KeyAgeCritical : Bool := false
  LogTimestamp : Bool := false
  MaxKeyAge : Int := 0
  Port : Int := 0
  PrincipalAliases : String := ""
  Pwauth : String := ""
  RequireClientIP : Bool := false
  SSHSerial : Bool := false
  SSLCA : String := ""
  SSLCADuration : Int := 0
  SSLCert : String := ""
  SSLCertHostname : String := ""
  SSLKey : String := ""
  SSLKeyCurve : String := ""
  SSLDuration : Int := 0
  Unixgroup : String := ""

/-- What `getConf` takes from outside `main.go`: the struct `viper.Unmarshal`
fills or the error it returns, and the functions `expandHome` and
`loadPrincipalMap`. -/
structure ConfEnv where
  unmarshal : Except String config
  expandHome : String → String
  loadPrincipalMap : config → Except String GoMap

/-- The function `getConf`: the configuration or the error it returns, and
the lines it writes with `log.Printf`. -/
def getConf (env : ConfEnv) : Except String config × List String :=
  match env.unmarshal with
  | .error err => (.error ("unable to read config into struct: " ++ err), [])
  | .ok conf₀ =>
    let conf₁ := { conf₀ with
      bucketNameFP := "pubkeybirthdays"
      bucketNameSSHSerial := "sshserial"
      bucketNameTLSSerial := "certserial" }
    if conf₁.SSLCA = "" ∨ conf₁.SSLKey = "" ∨ conf₁.SSLCert = "" then
      (.error "sslca, sslkey, and sslcert are required fields", [])
    else
      let conf₂ := { conf₁ with DBFile := env.expandHome conf₁.DBFile }
      let r := validateExtensions conf₂.Extensions
      let conf₃ := { conf₂ with exts := r.1 }
      let logged := r.2
      match env.loadPrincipalMap conf₃ with
      | .error err => (.error err, logged)
      | .ok principalMap =>
        let conf₄ := { conf₃ with principalMap := principalMap }
        (.ok { conf₄ with userRegex := some Curse.userRegex }, logged)

/-! ## `main` (main.go, lines 61-154) -/

/-- The conversions of lines 68-86 of `main`, from the integers of the
configuration to durations. -/
def mainDurations (conf : config) : config :=
  let conf := { conf with dur := wrap64 (conf.Duration * Second) }
  let conf :=
    if conf.MaxKeyAge < 0 then { conf with keyLifeSpan := hundredYears }
    else { conf with keyLifeSpan := wrap64 (wrap64 (conf.MaxKeyAge * 24) * Hour) }
  let conf :=
    if conf.SSLDuration < 0 then { conf with tlsDur := hundredYears }
    else { conf with tlsDur := wrap64 (conf.SSLDuration * Second) }
  { conf with authTimeout := wrap64 (conf.AuthTimeout * Second) }

/-- What `main` does that is visible from outside, in order. -/
inductive MainEvent where
  | logged (line : String)
  | printed (line : String)
  | fatal (line : String)
  | loadSSHCA
  | openStore (file : String)
  | initBucket
  | checkTLSCerts
  | listen (addrPort cert key : String)
deriving DecidableEq, Repr

/-- What `main` takes from outside `main.go`, besides what `getConf` takes:
the outcomes of `loadSSHCA` (the fingerprint of the CA key, or an error),
`bolt.Open`, `dbInitPubKeyBucket`, `initTLSCerts`, `getTLSConfig` and
`ListenAndServeTLS` (each the error it returns, if any). -/
structure MainEnv extends ConfEnv where
  loadSSHCA : config → Except String String
  boltOpen : String → Option String
  dbInitPubKeyBucket : config → Option String
  initTLSCerts : config → Bool × Option String
  getTLSConfig : config → Option String
  listenAndServeTLS : String → String → String → Option String

/-- The part of `main` after `getConf` has returned a configuration. -/
def mainServe (env : MainEnv) (conf₀ : config) : List MainEvent :=
  let conf := mainDurations conf₀
  .loadSSHCA ::
  match env.loadSSHCA conf with
  | .error err => [.fatal err]
  | .ok fp =>
  let conf := { conf with sshCAFP := fp }
  .openStore conf.DBFile ::
  match env.boltOpen conf.DBFile with
  | some err => [.fatal ("could not open database file " ++ err)]
  | none =>
  .initBucket ::
  match env.dbInitPubKeyBucket conf with
  | some err => [.fatal ("could not open database file " ++ err)]
  | none =>
  .checkTLSCerts ::
  match env.initTLSCerts conf with
  | (false, err) => [.fatal (err.getD "<nil>")]
  | (true, err) =>
  (match err with
    | some e => [.logged e]
    | none => []) ++
  let addrPort := conf.Addr ++ ":" ++ toString conf.Port
  match env.getTLSConfig conf with
  | some err => [.fatal err]
  | none =>
  (if conf.LogTimestamp then .logged ("Starting HTTPS cert server on " ++ addrPort)
    else .printed ("Starting HTTPS cert server on " ++ addrPort ++ "\n")) ::
  .listen addrPort conf.SSLCert conf.SSLKey ::
  match env.listenAndServeTLS addrPort conf.SSLCert conf.SSLKey with
  | some err => [.fatal ("listener service: " ++ err)]
  | none => []

/-- The function `main`, as the events it produces. -/
def main (env : MainEnv) : List MainEvent :=
  match getConf env.toConfEnv with
  | (.error err, logged) => logged.map .logged ++ [.fatal err]
  | (.ok conf, logged) => logged.map .logged ++ mainServe env conf

/-- An environment for examples: `viper.Unmarshal` fills in the given struct,
`expandHome` finds nothing to expand and the alias file has one alias. -/
def sampleMainEnv (conf : config) : MainEnv where
  unmarshal := .ok conf
  expandHome := id
  loadPrincipalMap := fun _ => .ok [("admin", "root")]
  loadSSHCA := fun _ => .ok "SHA256:fingerprint"
  boltOpen := fun _ => none
  dbInitPubKeyBucket := fun _ => none
  initTLSCerts := fun _ => (true, none)
  getTLSConfig := fun _ => none
  listenAndServeTLS := fun _ _ _ => some "accept: closed"

end Curse

/-! ## The client requests (jinxlib/request.go) -/

namespace Jinxlib

open Curse (wrap64 Second)

/-- The fields of the client's `config` that `request.go` reads. -/
structure config where
  SSLCertFile : String := ""
  SSLKeyFile : String := ""
  SSLCAFile : String := ""
  Timeout : Int := 0
  BastionIP : String := ""
  cmd : String := ""
  SSHUser : String := ""
  userIP : String := ""
  URLCurse : String := ""
  URLAuth : String := ""
  Insecure : Bool := false
  userName : String := ""
  userPass : String := ""

/-- An `http.Request`: method, URL, body, header lines in the order they were
added, and the credentials given to `SetBasicAuth`. -/
structure Request where
  method : String
  url : String
  body : String
  header : List (String × String) := []
  basicAuth : Option (String × String) := none
deriving DecidableEq, Repr

/-- The `http.Client` a request function configures: the `tls.Config` of its
transport and its timeout. -/
structure Client where
  certificates : List String := []
  rootCAs : List String := []
  insecureSkipVerify : Bool := false
  timeout : Int := 0
deriving DecidableEq, Repr

/-- An `http.Response`: the status code and the outcome of reading the body
to its end with `ioutil.ReadAll`. -/
structure Response where
  StatusCode : Int
  Body : Except String String

/-- The outcomes of the steps the request functions take outside
`request.go`: `tls.LoadX509KeyPair`, `ioutil.ReadFile`, `genTLSCSR`,
`url.Values.Encode`, `http.NewRequest` (an error comes with a nil request) and
`(*http.Client).Do`. -/
structure NetEnv where
  loadX509KeyPair : String → String → Except String String
  readFile : String → Except String String
  genTLSCSR : config → Except String String
  formEncode : List (String × String) → String
  newRequest : String → String → String → Except String Request
  clientDo : Client → Request → Except String Response

/-- How a call ends: it returns `(body, status, err)`, or it stops with the
run-time panic of a nil pointer dereference. -/
inductive Outcome where
  | returned (body : Option String) (status : Int) (err : Option String)
  | nilDereference
deriving DecidableEq, Repr

/-- A call of a request function: how it ends and the requests it has handed
to `client.Do`, each with the client that sent it. -/
structure Run where
  outcome : Outcome
  sent : List (Client × Request)
deriving DecidableEq, Repr

/-- The function `requestSSHCert`. The error of `http.NewRequest` is assigned
and not looked at before `req.Header.Add` uses the request, which is nil when
there is an error. -/
def requestSSHCert (env : NetEnv) (conf : config) (pubKey : String) : Run :=
  match env.loadX509KeyPair conf.SSLCertFile conf.SSLKeyFile with
  | .error err =>
    ⟨.returned none 1
      (some ("Failed to load TLS mutual auth client certfificate/key pair: " ++ err)), []⟩
  | .ok keyPair =>
    match env.readFile conf.SSLCAFile with
    | .error err =>
      ⟨.returned none 1 (some ("Failed to load TLS mutual auth CA: " ++ err)), []⟩
    | .ok ca =>
      let client : Client :=
        { certificates := [keyPair]
          rootCAs := [ca]
          timeout := wrap64 (conf.Timeout * Second) }
      let form :=
        [("bastionIP", conf.BastionIP), ("cmd", conf.cmd), ("key", pubKey),
         ("remoteUser", conf.SSHUser), ("userIP", conf.userIP)]
      match env.newRequest "POST" conf.URLCurse (env.formEncode form) with
      | .error _ => ⟨.nilDereference, []⟩
      | .ok req₀ =>
        let req := { req₀ with
          header := req₀.header ++ [("Content-Type", "application/x-www-form-urlencoded")] }
        match env.clientDo client req with
        | .error err => ⟨.returned none 2 (some ("Connection failed: " ++ err)), [(client, req)]⟩
        | .ok resp =>
          match resp.Body with
          | .error err =>
            ⟨.returned none 2 (some ("Failed to process response: " ++ err)), [(client, req)]⟩
          | .ok respBody => ⟨.returned (some respBody) resp.StatusCode none, [(client, req)]⟩

/-- The function `requestTLSCert`. The error of `http.NewRequest` is assigned
and not looked at before `req.Header.Add` uses the request, which is nil when
there is an error. -/
def requestTLSCert (env : NetEnv) (conf : config) : Run :=
  match env.genTLSCSR conf with
  | .error err => ⟨.returned none 1 (some err), []⟩
  | .ok csrBytes =>
    let client : Client :=
      { insecureSkipVerify := conf.Insecure
        timeout := wrap64 (conf.Timeout * Second) }
    let form := [("csr", csrBytes), ("userIP", conf.userIP)]
    match env.newRequest "POST" conf.URLAuth (env.formEncode form) with
    | .error _ => ⟨.nilDereference, []⟩
    | .ok req₀ =>
      let req := { req₀ with
        header := req₀.header ++ [("Content-Type", "application/x-www-form-urlencoded")]
        basicAuth := some (conf.userName, conf.userPass) }
      match env.clientDo client req with
      | .error err => ⟨.returned none 2 (some ("Connection failed: " ++ err)), [(client, req)]⟩
      | .ok resp =>
        match resp.Body with
        | .error err =>
          ⟨.returned none 2 (some ("Failed to process response: " ++ err)), [(client, req)]⟩
        | .ok respBody => ⟨.returned (some respBody) resp.StatusCode none, [(client, req)]⟩

/-- An environment for examples: the local files load, the form is encoded
without escaping, `http.NewRequest` fails on the URL `://curse`, which has no
scheme, and builds a request from every other URL, and the server answers
every request with the given status code and the body `cert`. -/
def sampleNetEnv (status : Int) : NetEnv where
  loadX509KeyPair := fun _ _ => .ok "keypair"
  readFile := fun _ => .ok "ca"
  genTLSCSR := fun _ => .ok "csr"
  formEncode := fun form => String.intercalate "&" (form.map fun kv => kv.1 ++ "=" ++ kv.2)
  newRequest := fun method url body =>
    if url = "://curse" then .error "parse \"://curse\": missing protocol scheme"
    else .ok { method := method, url := url, body := body }
  clientDo := fun _ _ => .ok { StatusCode := status, Body := .ok "cert" }

end Jinxlib


/-! # Theorems -/

namespace Curse

/-! ## Go maps -/

theorem GoMap.get?_set (m : GoMap) (k v k' : String) :
    (m.set k v).get? k' = if k = k' then some v else m.get? k' := by
  induction m with
  | nil => simp [GoMap.set, GoMap.get?]
  | cons p rest ih =>
    obtain ⟨a, b⟩ := p
    by_cases hak : a = k
    · subst hak
      by_cases hkk : a = k'
      · simp [GoMap.set, GoMap.get?, hkk]
      · simp [GoMap.set, GoMap.get?, hkk]
    · by_cases hkk : k = k'
      · subst hkk
        simp [GoMap.set, GoMap.get?, hak, ih]
      · simp [GoMap.set, GoMap.get?, hak, ih, hkk]

theorem GoMap.mem_keys_set (m : GoMap) (k v k' : String) :
    k' ∈ (m.set k v).keys ↔ k' = k ∨ k' ∈ m.keys := by
  induction m with
  | nil => simp [GoMap.set, GoMap.keys]
  | cons p rest ih =>
    obtain ⟨a, b⟩ := p
    by_cases hak : a = k
    · subst hak
      simp [GoMap.set, GoMap.keys]
    · simp only [GoMap.keys] at ih
      simp [GoMap.set, GoMap.keys, hak, ih]
      tauto

theorem GoMap.nodup_keys_set (m : GoMap) (k v : String) (h : m.keys.Nodup) :
    (m.set k v).keys.Nodup := by
  induction m with
  | nil => simp [GoMap.set, GoMap.keys]
  | cons p rest ih =>
    obtain ⟨a, b⟩ := p
    have h' : a ∉ GoMap.keys rest ∧ (GoMap.keys rest).Nodup := by
      simpa [GoMap.keys] using h
    by_cases hak : a = k
    · subst hak
      simpa [GoMap.set, GoMap.keys] using h
    · have hmem := GoMap.mem_keys_set rest k v a
      have ih' := ih h'.2
      simp only [GoMap.keys] at ih' hmem h'
      simp only [GoMap.set, hak, if_false, GoMap.keys, List.map_cons, List.nodup_cons]
      exact ⟨fun hc => (hmem.mp hc).elim hak h'.1, ih'⟩

theorem GoMap.mem_keys_iff (m : GoMap) (k : String) :
    k ∈ m.keys ↔ (m.get? k).isSome = true := by
  induction m with
  | nil => simp [GoMap.keys, GoMap.get?]
  | cons p rest ih =>
    obtain ⟨a, b⟩ := p
    simp only [GoMap.keys] at ih
    by_cases hak : a = k
    · simp [GoMap.keys, GoMap.get?, hak]
    · have hka : ¬ k = a := fun h => hak h.symm
      simp [GoMap.keys, GoMap.get?, hak, hka, ih]

/-! ## `validateExtensions` -/

theorem validateExtensionsInner_eq (entry : String) (vs : List String) (exts : GoMap) :
    validateExtensionsInner entry vs exts =
      if entry ∈ vs then (exts.set entry "", true) else (exts, false) := by
  induction vs with
  | nil => simp [validateExtensionsInner]
  | cons v vs ih =>
    by_cases h : entry = v
    · simp [validateExtensionsInner, h]
    · simp [validateExtensionsInner, h, ih]

theorem validateExtensionsLoop_eq (confExts : List String) (exts : GoMap)
    (errSlice : List String) :
    validateExtensionsLoop confExts exts errSlice =
      (writeAll exts (confExts.filter fun e => decide (e ∈ validExts)),
        errSlice ++
          (confExts.filter fun e => !decide (e ∈ validExts)).map invalidExtensionError) := by
  induction confExts generalizing exts errSlice with
  | nil => simp [validateExtensionsLoop, writeAll]
  | cons e rest ih =>
    by_cases h : e ∈ validExts
    · simp [validateExtensionsLoop, validateExtensionsInner_eq, h, ih, writeAll]
    · simp [validateExtensionsLoop, validateExtensionsInner_eq, h, ih, writeAll]

theorem writeAll_get? (exts : GoMap) (entries : List String) (k : String) :
    (writeAll exts entries).get? k = if k ∈ entries then some "" else exts.get? k := by
  induction entries generalizing exts with
  | nil => simp [writeAll]
  | cons e rest ih =>
    have := ih (exts.set e "")
    simp only [writeAll, List.foldl_cons] at this ⊢
    rw [this, GoMap.get?_set]
    by_cases hk : k ∈ rest
    · simp [hk]
    · by_cases he : e = k
      · simp [he]
      · have : ¬ k = e := fun h => he h.symm
        simp [hk, he, this]

theorem writeAll_nodup (exts : GoMap) (entries : List String) (h : exts.keys.Nodup) :
    (writeAll exts entries).keys.Nodup := by
  induction entries generalizing exts with
  | nil => simpa [writeAll] using h
  | cons e rest ih =>
    simpa [writeAll] using ih (exts.set e "") (GoMap.nodup_keys_set exts e "" h)

theorem validateExtensions_get? (confExts : List String) (k : String) :
    (validateExtensions confExts).1.get? k =
      if k ∈ confExts ∧ k ∈ validExts then some "" else none := by
  simp only [validateExtensions, validateExtensionsLoop_eq, writeAll_get?]
  simp [GoMap.empty, GoMap.get?]

theorem validateExtensions_nodup (confExts : List String) :
    (validateExtensions confExts).1.keys.Nodup := by
  simp only [validateExtensions, validateExtensionsLoop_eq]
  exact writeAll_nodup _ _ (by simp [GoMap.empty, GoMap.keys])

theorem validateExtensions_mem_keys (confExts : List String) (k : String) :
    k ∈ (validateExtensions confExts).1.keys ↔ k ∈ confExts ∧ k ∈ validExts := by
  rw [GoMap.mem_keys_iff, validateExtensions_get?]
  by_cases h : k ∈ confExts ∧ k ∈ validExts
  · simp [h]
  · rw [if_neg h]; simp [h]

theorem validateExtensions_size_le (confExts : List String) :
    (validateExtensions confExts).1.size ≤ 5 := by
  have hsub : (validateExtensions confExts).1.keys ⊆ validExts := fun k hk =>
    ((validateExtensions_mem_keys confExts k).mp hk).2
  have hle := ((validateExtensions_nodup confExts).subperm hsub).length_le
  simpa [GoMap.keys, GoMap.size, validExts] using hle

theorem validateExtensions_errors_eq (confExts : List String) :
    (validateExtensions confExts).2 =
      (confExts.filter fun e => !decide (e ∈ validExts)).map invalidExtensionError := by
  simp [validateExtensions, validateExtensionsLoop_eq]

theorem length_filter_not_add (p : String → Bool) (l : List String) :
    (l.filter fun e => !p e).length + (l.filter p).length = l.length := by
  induction l with
  | nil => rfl
  | cons e rest ih =>
    by_cases h : p e = true
    · simp [List.filter_cons, h]; omega
    · simp [List.filter_cons, h]; omega

/-- C1: a string is a key of the map `validateExtensions` returns exactly when
it occurs in the input and is one of the five allowed names; every key maps
to the empty string; the map has one entry per key and at most five entries;
and two inputs with the same set of entries give the same map. -/
theorem validateExtensions_map_spec (confExts : List String) :
    (∀ k, k ∈ (validateExtensions confExts).1.keys ↔
      k ∈ confExts ∧
        k ∈ ["permit-X11-forwarding", "permit-agent-forwarding",
              "permit-port-forwarding", "permit-pty", "permit-user-rc"]) ∧
    (∀ k, (validateExtensions confExts).1.get? k =
      if k ∈ (validateExtensions confExts).1.keys then some "" else none) ∧
    (validateExtensions confExts).1.keys.Nodup ∧
    (validateExtensions confExts).1.size ≤ 5 ∧
    (∀ other : List String, (∀ x, x ∈ confExts ↔ x ∈ other) →
      (∀ k, (validateExtensions other).1.get? k = (validateExtensions confExts).1.get? k) ∧
      (validateExtensions other).1.size = (validateExtensions confExts).1.size) := by
  refine ⟨fun k => validateExtensions_mem_keys confExts k, fun k => ?_,
    validateExtensions_nodup confExts, validateExtensions_size_le confExts,
    fun other hsame => ⟨fun k => ?_, ?_⟩⟩
  · rw [validateExtensions_get?]
    by_cases h : k ∈ confExts ∧ k ∈ validExts
    · rw [if_pos h, if_pos ((validateExtensions_mem_keys confExts k).mpr h)]
    · rw [if_neg h, if_neg fun hk => h ((validateExtensions_mem_keys confExts k).mp hk)]
  · rw [validateExtensions_get?, validateExtensions_get?]
    simp only [hsame k]
  · have hperm : (validateExtensions other).1.keys.Perm (validateExtensions confExts).1.keys := by
      rw [List.perm_ext_iff_of_nodup (validateExtensions_nodup other)
        (validateExtensions_nodup confExts)]
      intro k
      rw [validateExtensions_mem_keys, validateExtensions_mem_keys, hsame k]
    simpa [GoMap.keys, GoMap.size] using hperm.length_eq

theorem validateExtensions_map_spec_witness :
    (∀ x, x ∈ ["permit-pty", "bogus", "permit-pty", "permit-user-rc"] ↔
      x ∈ ["permit-user-rc", "bogus", "permit-pty"]) ∧
    (∀ k, (validateExtensions ["permit-user-rc", "bogus", "permit-pty"]).1.get? k =
      (validateExtensions ["permit-pty", "bogus", "permit-pty", "permit-user-rc"]).1.get? k) ∧
    (validateExtensions ["permit-user-rc", "bogus", "permit-pty"]).1.size =
      (validateExtensions ["permit-pty", "bogus", "permit-pty", "permit-user-rc"]).1.size :=
  have h : ∀ x, x ∈ ["permit-pty", "bogus", "permit-pty", "permit-user-rc"] ↔
      x ∈ ["permit-user-rc", "bogus", "permit-pty"] := by
    intro x
    simp only [List.mem_cons, List.mem_singleton, List.not_mem_nil, or_false]
    tauto
  ⟨h, (validateExtensions_map_spec ["permit-pty", "bogus", "permit-pty", "permit-user-rc"]).2.2.2.2
    ["permit-user-rc", "bogus", "permit-pty"] h⟩

/-- C2: the errors `validateExtensions` returns are one per input entry that
is not one of the five allowed names, in input order and with duplicates,
each with the message `invalid extension in config: <entry>`; the number of
errors plus the number of allowed entries is the input length; there is no
error exactly when every entry is allowed; and `["permit-pty", "bogus"]`
gives the map with the single key `permit-pty` and the single error naming
`bogus`. -/
theorem validateExtensions_errors_spec (confExts : List String) :
    (validateExtensions confExts).2 =
      (confExts.filter fun e =>
        !decide (e ∈ ["permit-X11-forwarding", "permit-agent-forwarding",
                      "permit-port-forwarding", "permit-pty", "permit-user-rc"])).map
        (fun e => "invalid extension in config: " ++ e) ∧
    (validateExtensions confExts).2.length +
      (confExts.filter fun e =>
        decide (e ∈ ["permit-X11-forwarding", "permit-agent-forwarding",
                     "permit-port-forwarding", "permit-pty", "permit-user-rc"])).length =
      confExts.length ∧
    ((validateExtensions confExts).2 = [] ↔
      ∀ e ∈ confExts, e ∈ ["permit-X11-forwarding", "permit-agent-forwarding",
                            "permit-port-forwarding", "permit-pty", "permit-user-rc"]) ∧
    validateExtensions ["permit-pty", "bogus"] =
      ([("permit-pty", "")], ["invalid extension in config: bogus"]) := by
  refine ⟨validateExtensions_errors_eq confExts, ?_, ?_, by decide⟩
  · rw [validateExtensions_errors_eq, List.length_map]
    exact length_filter_not_add (fun e => decide (e ∈ validExts)) confExts
  · rw [validateExtensions_errors_eq]
    simp only [List.map_eq_nil_iff, List.filter_eq_nil_iff, Bool.not_eq_true, Bool.not_eq_false',
      decide_eq_true_eq, validExts, not_not]

/-! ## The username pattern -/

theorem char_le_iff_toNat (a b : Char) : a ≤ b ↔ a.toNat ≤ b.toNat := by
  rw [Char.le_def]
  exact Iff.rfl

theorem classMatches_first (c : Char) :
    classMatches [('a', 'z'), ('_', '_')] true c = true ↔
      (97 ≤ c.toNat ∧ c.toNat ≤ 122) ∨ (65 ≤ c.toNat ∧ c.toNat ≤ 90) ∨ c.toNat = 95 ∨
        c.toNat = 383 ∨ c.toNat = 8490 := by
  unfold classMatches
  generalize c.toNat = n
  simp only [inRanges, simpleFoldOrbit, List.any_cons, List.any_nil,
    Char.reduceToNat, Bool.or_false, Bool.true_and, Bool.or_eq_true, Bool.and_eq_true,
    decide_eq_true_eq]
  split_ifs <;> simp only [inRanges, List.any_cons, List.any_nil,
    Char.reduceToNat, Bool.or_false, Bool.true_and, Bool.or_eq_true, Bool.and_eq_true,
    decide_eq_true_eq, Bool.false_eq_true, or_false] <;> omega

theorem step_beginText (c : Cursor) :
    Regex.beginText.step c = if c.pos = 0 then [c] else [] := rfl

theorem step_endText (c : Cursor) :
    Regex.endText.step c = if c.rest.isEmpty then [c] else [] := rfl

theorem step_cat (r₁ r₂ : Regex) (c : Cursor) :
    (Regex.cat r₁ r₂).step c = (r₁.step c).flatMap r₂.step := rfl

theorem step_rep (r : Regex) (min max : Nat) (c : Cursor) :
    (Regex.rep r min max).step c = repeatStep r.step min max c := rfl

theorem step_charClass_nil (ranges : List (Char × Char)) (foldCase : Bool) (p : Nat) :
    (Regex.charClass ranges foldCase).step ⟨p, []⟩ = [] := rfl

theorem step_charClass_cons (ranges : List (Char × Char)) (foldCase : Bool) (p : Nat)
    (x : Char) (xs : List Char) :
    (Regex.charClass ranges foldCase).step ⟨p, x :: xs⟩ =
      if classMatches ranges foldCase x then [⟨p + 1, xs⟩] else [] := rfl

theorem repeatStep_class_end (ranges : List (Char × Char)) (foldCase : Bool)
    (max min : Nat) (c : Cursor) :
    (∃ d ∈ repeatStep (Regex.charClass ranges foldCase).step min max c, d.rest = []) ↔
      min ≤ c.rest.length ∧ c.rest.length ≤ max ∧
        ∀ x ∈ c.rest, classMatches ranges foldCase x = true := by
  induction max generalizing min c with
  | zero =>
    obtain ⟨p, l⟩ := c
    by_cases hmin : min = 0
    · subst hmin
      cases l <;> simp [repeatStep]
    · have : ¬ (min ≤ l.length ∧ l.length ≤ 0) := by omega
      simp only [repeatStep, hmin, if_false, List.not_mem_nil, false_and, exists_false,
        false_iff, not_and]
      intro h₁ h₂
      exact absurd ⟨h₁, h₂⟩ this
  | succ max ih =>
    obtain ⟨p, l⟩ := c
    cases l with
    | nil =>
      by_cases hmin : min = 0
      · simp [repeatStep, step_charClass_nil, hmin]
      · simp [repeatStep, step_charClass_nil, hmin]
    | cons x xs =>
      have hfirst : ¬ ∃ d ∈ (if min = 0 then [(⟨p, x :: xs⟩ : Cursor)] else []), d.rest = [] := by
        rintro ⟨d, hd, hrest⟩
        split_ifs at hd
        · simp only [List.mem_singleton] at hd
          subst hd
          simp at hrest
        · simp at hd
      have hsplit : (∃ d ∈ repeatStep (Regex.charClass ranges foldCase).step min (max + 1)
            ⟨p, x :: xs⟩, d.rest = []) ↔
          ∃ d ∈ ((Regex.charClass ranges foldCase).step ⟨p, x :: xs⟩).flatMap
            (repeatStep (Regex.charClass ranges foldCase).step (min - 1) max), d.rest = [] := by
        rw [repeatStep]
        constructor
        · rintro ⟨d, hd, hrest⟩
          rcases List.mem_append.mp hd with hd | hd
          · exact absurd ⟨d, hd, hrest⟩ hfirst
          · exact ⟨d, hd, hrest⟩
        · rintro ⟨d, hd, hrest⟩
          exact ⟨d, List.mem_append.mpr (Or.inr hd), hrest⟩
      rw [hsplit, step_charClass_cons]
      by_cases hx : classMatches ranges foldCase x = true
      · have := ih (min - 1) ⟨p + 1, xs⟩
        simp only [hx, if_true, List.flatMap_cons, List.flatMap_nil, List.append_nil,
          List.length_cons, List.mem_cons, forall_eq_or_imp, true_and] at this ⊢
        rw [this]
        constructor
        · rintro ⟨h₁, h₂, h₃⟩
          exact ⟨by omega, by omega, h₃⟩
        · rintro ⟨h₁, h₂, h₃⟩
          exact ⟨by omega, by omega, h₃⟩
      · simp only [hx, List.flatMap_nil, List.length_cons, List.mem_cons, forall_eq_or_imp]
        simp


theorem classMatches_second (c : Char) :
    classMatches [('a', 'z'), ('0', '9'), ('_', '_'), ('-', '-')] true c = true ↔
      (97 ≤ c.toNat ∧ c.toNat ≤ 122) ∨ (65 ≤ c.toNat ∧ c.toNat ≤ 90) ∨
        (48 ≤ c.toNat ∧ c.toNat ≤ 57) ∨ c.toNat = 95 ∨ c.toNat = 45 ∨
        c.toNat = 383 ∨ c.toNat = 8490 := by
  unfold classMatches
  generalize c.toNat = n
  simp only [inRanges, simpleFoldOrbit, List.any_cons, List.any_nil,
    Char.reduceToNat, Bool.or_false, Bool.true_and, Bool.or_eq_true, Bool.and_eq_true,
    decide_eq_true_eq]
  split_ifs <;> simp only [inRanges, List.any_cons, List.any_nil,
    Char.reduceToNat, Bool.or_false, Bool.true_and, Bool.or_eq_true, Bool.and_eq_true,
    decide_eq_true_eq, Bool.false_eq_true, or_false] <;> omega

theorem cursorsFrom_pos (n : Nat) (l : List Char) : ∀ c ∈ cursorsFrom n l, n ≤ c.pos := by
  induction l generalizing n with
  | nil => simp [cursorsFrom]
  | cons x xs ih =>
    intro c hc
    simp only [cursorsFrom, List.mem_cons] at hc
    rcases hc with rfl | hc
    · exact Nat.le_refl _
    · exact Nat.le_of_succ_le (ih (n + 1) c hc)

theorem cursorsFrom_head (n : Nat) (l : List Char) :
    ∃ tail, cursorsFrom n l = ⟨n, l⟩ :: tail ∧ ∀ c ∈ tail, n + 1 ≤ c.pos := by
  cases l with
  | nil => exact ⟨[], rfl, by simp⟩
  | cons x xs => exact ⟨cursorsFrom (n + 1) xs, rfl, cursorsFrom_pos (n + 1) xs⟩

theorem flatMap_endText_ne_nil (l : List Cursor) :
    l.flatMap Regex.endText.step ≠ [] ↔ ∃ d ∈ l, d.rest = [] := by
  induction l with
  | nil => simp
  | cons a l ih =>
    rw [List.flatMap_cons, step_endText]
    by_cases h : a.rest = []
    · simp [h]
    · have : a.rest.isEmpty = false := by
        cases hr : a.rest with
        | nil => exact absurd hr h
        | cons _ _ => rfl
      simp only [this, Bool.false_eq_true, if_false, List.nil_append, List.mem_cons,
        exists_eq_or_imp, h, false_or]
      exact ih

/-- The username pattern accepts a string exactly when the string is a
character of the first class followed by 1 to 31 characters of the second. -/
theorem userRegex_MatchString_iff (s : String) :
    userRegex.MatchString s = true ↔
      ∃ x xs, s.toList = x :: xs ∧
        classMatches [('a', 'z'), ('_', '_')] true x = true ∧
        1 ≤ xs.length ∧ xs.length ≤ 31 ∧
        ∀ y ∈ xs, classMatches [('a', 'z'), ('0', '9'), ('_', '_'), ('-', '-')] true y = true := by
  obtain ⟨tail, htail, hpos⟩ := cursorsFrom_head 0 s.toList
  have hlater : ∀ c ∈ tail, userRegex.step c = [] := by
    intro c hc
    have := hpos c hc
    have hne : ¬ c.pos = 0 := by omega
    simp [userRegex, step_cat, step_beginText, hne]
  have hany : (tail.any fun c => !(userRegex.step c).isEmpty) = false := by
    rw [List.any_eq_false]
    intro c hc
    simp [hlater c hc]
  rw [Regex.MatchString, htail, List.any_cons, hany, Bool.or_false]
  have hstep : userRegex.step ⟨0, s.toList⟩ =
      ((Regex.charClass [('a', 'z'), ('_', '_')] true).step ⟨0, s.toList⟩).flatMap
        fun c => (repeatStep
          (Regex.charClass [('a', 'z'), ('0', '9'), ('_', '_'), ('-', '-')] true).step 1 31
            c).flatMap Regex.endText.step := by
    simp [userRegex, step_cat, step_beginText, step_rep]
    rfl
  rw [hstep]
  cases hs : s.toList with
  | nil => simp [step_charClass_nil]
  | cons x xs =>
    rw [step_charClass_cons]
    by_cases hx : classMatches [('a', 'z'), ('_', '_')] true x = true
    · have key := repeatStep_class_end [('a', 'z'), ('0', '9'), ('_', '_'), ('-', '-')] true
        31 1 ⟨1, xs⟩
      have hne := flatMap_endText_ne_nil (repeatStep
          (Regex.charClass [('a', 'z'), ('0', '9'), ('_', '_'), ('-', '-')] true).step 1 31
            ⟨1, xs⟩)
      simp only [hx, if_true, List.flatMap_cons, List.flatMap_nil, List.append_nil,
        Bool.not_eq_true', List.isEmpty_eq_false, Nat.zero_add]
      rw [hne, key]
      constructor
      · intro h
        exact ⟨x, xs, rfl, hx, h⟩
      · rintro ⟨x', xs', heq, _, h⟩
        cases heq
        exact h
    · simp only [hx, Bool.false_eq_true, if_false, List.flatMap_nil, List.isEmpty_nil,
        Bool.not_true, false_iff, not_exists, not_and]
      rintro x' xs' heq h
      cases heq
      exact absurd h hx

theorem char_eq_iff_toNat (a b : Char) : a = b ↔ a.toNat = b.toNat := by
  constructor
  · intro h; rw [h]
  · intro h
    have := congrArg Char.ofNat h
    simpa [Char.ofNat_toNat] using this

theorem classMatches_first_chars (c : Char) :
    classMatches [('a', 'z'), ('_', '_')] true c = true ↔
      ('a' ≤ c ∧ c ≤ 'z') ∨ ('A' ≤ c ∧ c ≤ 'Z') ∨ c = '\u017F' ∨ c = '\u212A' ∨ c = '_' := by
  rw [classMatches_first]
  simp only [char_le_iff_toNat, char_eq_iff_toNat, Char.reduceToNat]
  omega

theorem classMatches_second_chars (c : Char) :
    classMatches [('a', 'z'), ('0', '9'), ('_', '_'), ('-', '-')] true c = true ↔
      ('a' ≤ c ∧ c ≤ 'z') ∨ ('A' ≤ c ∧ c ≤ 'Z') ∨ c = '\u017F' ∨ c = '\u212A' ∨
        ('0' ≤ c ∧ c ≤ '9') ∨ c = '-' ∨ c = '_' := by
  rw [classMatches_second]
  simp only [char_le_iff_toNat, char_eq_iff_toNat, Char.reduceToNat]
  omega

theorem classMatches_first_imp_second (c : Char)
    (h : classMatches [('a', 'z'), ('_', '_')] true c = true) :
    classMatches [('a', 'z'), ('0', '9'), ('_', '_'), ('-', '-')] true c = true := by
  rw [classMatches_first] at h
  rw [classMatches_second]
  omega

/-- What the username pattern accepts, for every string: the string has
between 2 and 32 characters, its first character is `_` or matches `[a-z]`
without regard to case (a letter `a-z` or `A-Z`, the long s U+017F or the
Kelvin sign U+212A), and every character is one of these, a digit `0-9` or
`-`. -/
theorem userRegex_MatchString_shape (s : String) :
    userRegex.MatchString s = true ↔
      2 ≤ s.length ∧ s.length ≤ 32 ∧
      (∀ c, s.toList.head? = some c →
        ('a' ≤ c ∧ c ≤ 'z') ∨ ('A' ≤ c ∧ c ≤ 'Z') ∨ c = '\u017F' ∨ c = '\u212A' ∨ c = '_') ∧
      (∀ c ∈ s.toList,
        ('a' ≤ c ∧ c ≤ 'z') ∨ ('A' ≤ c ∧ c ≤ 'Z') ∨ c = '\u017F' ∨ c = '\u212A' ∨
          ('0' ≤ c ∧ c ≤ '9') ∨ c = '-' ∨ c = '_') := by
  have hlen : s.length = s.toList.length := rfl
  rw [userRegex_MatchString_iff, hlen]
  constructor
  · rintro ⟨x, xs, hs, h₁, h₂, h₃, h₄⟩
    rw [hs]
    refine ⟨by simp only [List.length_cons]; omega, by simp only [List.length_cons]; omega,
      ?_, ?_⟩
    · intro c hc
      simp only [List.head?_cons, Option.some.injEq] at hc
      subst hc
      exact (classMatches_first_chars x).mp h₁
    · intro c hc
      rw [← classMatches_second_chars c]
      rcases List.mem_cons.mp hc with rfl | hc
      · exact classMatches_first_imp_second c h₁
      · exact h₄ c hc
  · rintro ⟨h₁, h₂, h₃, h₄⟩
    cases hs : s.toList with
    | nil => rw [hs] at h₁; simp at h₁
    | cons x xs =>
      rw [hs] at h₁ h₂ h₃ h₄
      simp only [List.length_cons] at h₁ h₂
      refine ⟨x, xs, rfl, ?_, by omega, by omega, ?_⟩
      · exact (classMatches_first_chars x).mpr (h₃ x rfl)
      · intro y hy
        exact (classMatches_second_chars y).mpr (h₄ y (List.mem_cons_of_mem x hy))

/-- C3 fails on the code: the username pattern accepts `Ab`, a string of two
characters whose first character `A` is neither a lowercase letter `a-z` nor
`_`, and it accepts `aB`, whose second character `B` is none of a lowercase
letter, a digit, `-` and `_`. -/
theorem userRegex_accepts_uppercase :
    userRegex.MatchString "Ab" = true ∧ "Ab".toList.head? = some 'A' ∧
      ¬ (('a' ≤ 'A' ∧ 'A' ≤ 'z') ∨ 'A' = '_') ∧
    userRegex.MatchString "aB" = true ∧ 'B' ∈ "aB".toList ∧
      ¬ (('a' ≤ 'B' ∧ 'B' ≤ 'z') ∨ ('0' ≤ 'B' ∧ 'B' ≤ '9') ∨ 'B' = '-' ∨ 'B' = '_') := by
  decide

/-- C4: every string the username pattern accepts has at least 2 and at most
32 characters and does not begin with a digit or `-`; `a` and `1abc` are
rejected and `_ab-12` is accepted. -/
theorem userRegex_accepted_shape :
    (∀ s : String, userRegex.MatchString s = true →
      2 ≤ s.length ∧ s.length ≤ 32 ∧
        ∀ c, s.toList.head? = some c → ¬ ('0' ≤ c ∧ c ≤ '9') ∧ c ≠ '-') ∧
    userRegex.MatchString "a" = false ∧
    userRegex.MatchString "1abc" = false ∧
    userRegex.MatchString "_ab-12" = true := by
  refine ⟨fun s h => ?_, by decide, by decide, by decide⟩
  have hlen : s.length = s.toList.length := rfl
  obtain ⟨x, xs, hs, h₁, h₂, h₃, _⟩ := (userRegex_MatchString_iff s).mp h
  rw [hlen, hs]
  refine ⟨by simp only [List.length_cons]; omega, by simp only [List.length_cons]; omega, ?_⟩
  intro c hc
  simp only [List.head?_cons, Option.some.injEq] at hc
  subst hc
  rw [classMatches_first] at h₁
  simp only [char_le_iff_toNat, char_eq_iff_toNat, Char.reduceToNat, ne_eq]
  omega

theorem userRegex_accepted_shape_witness :
    2 ≤ "_ab-12".length ∧ "_ab-12".length ≤ 32 ∧
      ∀ c, "_ab-12".toList.head? = some c → ¬ ('0' ≤ c ∧ c ≤ '9') ∧ c ≠ '-' :=
  userRegex_accepted_shape.1 "_ab-12" (by decide)

/-- Under `(?i)` the class `[a-z]` also holds the Kelvin sign U+212A, which
folds to `k`: the pattern accepts a string that begins with it. -/
theorem userRegex_accepts_kelvin_sign : userRegex.MatchString "\u212Aa" = true := by decide

/-! ## `getConf` and `main` -/

theorem getConf_of_empty (env : ConfEnv) (conf : config) (hun : env.unmarshal = .ok conf)
    (hempty : conf.SSLCA = "" ∨ conf.SSLKey = "" ∨ conf.SSLCert = "") :
    getConf env = (.error "sslca, sslkey, and sslcert are required fields", []) := by
  simp [getConf, hun, hempty]

theorem getConf_ok_inv (env : ConfEnv) (conf : config) (h : (getConf env).1 = .ok conf) :
    ∃ conf₀ principalMap, env.unmarshal = .ok conf₀ ∧
      ¬ (conf₀.SSLCA = "" ∨ conf₀.SSLKey = "" ∨ conf₀.SSLCert = "") ∧
      conf = { conf₀ with
        bucketNameFP := "pubkeybirthdays"
        bucketNameSSHSerial := "sshserial"
        bucketNameTLSSerial := "certserial"
        DBFile := env.expandHome conf₀.DBFile
        exts := (validateExtensions conf₀.Extensions).1
        principalMap := principalMap
        userRegex := some userRegex } := by
  unfold getConf at h
  split at h
  · simp at h
  · rename_i conf₀ hun
    dsimp only at h
    split at h
    · simp at h
    · rename_i hne
      split at h
      · simp at h
      · rename_i principalMap hpm
        simp only [Except.ok.injEq] at h
        exact ⟨conf₀, principalMap, hun, hne, h.symm⟩

/-- C5: when any of `SSLCA`, `SSLKey` or `SSLCert` of the configuration read
is empty, `getConf` returns an error and no configuration, and `main` stops
with that error as its only event, before it opens the store or listens;
every configuration `getConf` returns has the three of them non-empty. -/
theorem getConf_requires_tls_material (env : MainEnv) :
    (∀ conf, env.unmarshal = .ok conf →
      (conf.SSLCA = "" ∨ conf.SSLKey = "" ∨ conf.SSLCert = "") →
      (getConf env.toConfEnv).1 = .error "sslca, sslkey, and sslcert are required fields" ∧
      main env = [.fatal "sslca, sslkey, and sslcert are required fields"]) ∧
    (∀ conf, (getConf env.toConfEnv).1 = .ok conf →
      conf.SSLCA ≠ "" ∧ conf.SSLCert ≠ "" ∧ conf.SSLKey ≠ "") := by
  constructor
  · intro conf hun hempty
    have h := getConf_of_empty env.toConfEnv conf hun hempty
    refine ⟨by rw [h], ?_⟩
    simp [main, h]
  · intro conf h
    obtain ⟨conf₀, principalMap, _, hne, rfl⟩ := getConf_ok_inv env.toConfEnv conf h
    simp only [not_or] at hne
    exact ⟨hne.1, hne.2.2, hne.2.1⟩

theorem getConf_requires_tls_material_witness :
    (getConf (sampleMainEnv { SSLCA := "ca.crt", SSLCert := "cursed.crt" }).toConfEnv).1 =
        .error "sslca, sslkey, and sslcert are required fields" ∧
      main (sampleMainEnv { SSLCA := "ca.crt", SSLCert := "cursed.crt" }) =
        [.fatal "sslca, sslkey, and sslcert are required fields"] :=
  (getConf_requires_tls_material (sampleMainEnv { SSLCA := "ca.crt", SSLCert := "cursed.crt" })).1
    { SSLCA := "ca.crt", SSLCert := "cursed.crt" } rfl (by decide)

/-- C8: unknown extensions do not abort the loading of the configuration:
when the struct is read, `SSLCA`, `SSLKey` and `SSLCert` are non-empty and
the alias file named by the configuration loads, `getConf` returns a
configuration and no error, its `exts` is the map `validateExtensions`
returns for the `Extensions` read, and the errors of `validateExtensions` are
the lines logged. -/
theorem getConf_keeps_allowed_extensions (env : ConfEnv) (conf : config)
    (hun : env.unmarshal = .ok conf)
    (hca : conf.SSLCA ≠ "") (hkey : conf.SSLKey ≠ "") (hcert : conf.SSLCert ≠ "")
    (hload : ∀ c : config, c.PrincipalAliases = conf.PrincipalAliases →
      ∃ m, env.loadPrincipalMap c = .ok m) :
    ∃ conf', (getConf env).1 = .ok conf' ∧
      conf'.exts = (validateExtensions conf.Extensions).1 ∧
      conf'.Extensions = conf.Extensions ∧
      (getConf env).2 = (validateExtensions conf.Extensions).2 := by
  obtain ⟨m, hm⟩ := hload
    { conf with
      bucketNameFP := "pubkeybirthdays"
      bucketNameSSHSerial := "sshserial"
      bucketNameTLSSerial := "certserial"
      DBFile := env.expandHome conf.DBFile
      exts := (validateExtensions conf.Extensions).1 } rfl
  simp [getConf, hun, hca, hkey, hcert, hm]

theorem getConf_keeps_allowed_extensions_witness :
    ∃ conf', (getConf (sampleMainEnv
        { SSLCA := "ca.crt", SSLCert := "cursed.crt", SSLKey := "cursed.key",
          Extensions := ["permit-pty", "bogus"] }).toConfEnv).1 = .ok conf' ∧
      conf'.exts = (validateExtensions ["permit-pty", "bogus"]).1 ∧
      conf'.Extensions = ["permit-pty", "bogus"] ∧
      (getConf (sampleMainEnv
        { SSLCA := "ca.crt", SSLCert := "cursed.crt", SSLKey := "cursed.key",
          Extensions := ["permit-pty", "bogus"] }).toConfEnv).2 =
        (validateExtensions ["permit-pty", "bogus"]).2 :=
  getConf_keeps_allowed_extensions
    (sampleMainEnv
      { SSLCA := "ca.crt", SSLCert := "cursed.crt", SSLKey := "cursed.key",
        Extensions := ["permit-pty", "bogus"] }).toConfEnv
    { SSLCA := "ca.crt", SSLCert := "cursed.crt", SSLKey := "cursed.key",
      Extensions := ["permit-pty", "bogus"] }
    rfl (by decide) (by decide) (by decide) (fun _ _ => ⟨_, rfl⟩)

/-! ## The key lifespan -/

theorem wrap64_of_mem (x : Int) (h₁ : -(2 ^ 63) ≤ x) (h₂ : x < 2 ^ 63) : wrap64 x = x := by
  unfold wrap64
  omega

theorem keyLifeSpan_neg (conf : config) (h : conf.MaxKeyAge < 0) :
    (mainDurations conf).keyLifeSpan = hundredYears := by
  unfold mainDurations
  dsimp only
  split_ifs <;> simp [h]

theorem keyLifeSpan_nonneg (conf : config) (h : 0 ≤ conf.MaxKeyAge) :
    (mainDurations conf).keyLifeSpan = wrap64 (wrap64 (conf.MaxKeyAge * 24) * Hour) := by
  have h' : ¬ conf.MaxKeyAge < 0 := by omega
  unfold mainDurations
  dsimp only
  split_ifs <;> simp [h']

/-- C9 (as amended): for every negative `MaxKeyAge` the lifespan is the
sentinel of `100 * 365 * 24` hours, which is positive and fits a signed 64-bit
count of nanoseconds; for every `MaxKeyAge` from 0 to 106751 the lifespan is
exactly `MaxKeyAge` days and is not negative; and for every `MaxKeyAge` from 0
to 36500 the lifespan is at most the sentinel. -/
theorem keyLifeSpan_spec (conf : config) :
    (conf.MaxKeyAge < 0 →
      (mainDurations conf).keyLifeSpan = 100 * 365 * 24 * (3600 * 1000000000) ∧
      0 < (mainDurations conf).keyLifeSpan ∧ (mainDurations conf).keyLifeSpan < 2 ^ 63) ∧
    (0 ≤ conf.MaxKeyAge → conf.MaxKeyAge ≤ 106751 →
      (mainDurations conf).keyLifeSpan = conf.MaxKeyAge * (24 * (3600 * 1000000000)) ∧
      0 ≤ (mainDurations conf).keyLifeSpan) ∧
    (0 ≤ conf.MaxKeyAge → conf.MaxKeyAge ≤ 36500 →
      (mainDurations conf).keyLifeSpan ≤ 100 * 365 * 24 * (3600 * 1000000000)) := by
  have hexact : 0 ≤ conf.MaxKeyAge → conf.MaxKeyAge ≤ 106751 →
      (mainDurations conf).keyLifeSpan = conf.MaxKeyAge * (24 * (3600 * 1000000000)) := by
    intro h₁ h₂
    rw [keyLifeSpan_nonneg conf h₁, wrap64_of_mem (conf.MaxKeyAge * 24) (by omega) (by omega)]
    simp only [Hour, Second]
    rw [wrap64_of_mem _ (by omega) (by omega)]
    omega
  refine ⟨fun h => ?_, fun h₁ h₂ => ?_, fun h₁ h₂ => ?_⟩
  · rw [keyLifeSpan_neg conf h]
    simp only [hundredYears, Hour, Second]
    exact ⟨by norm_num, by norm_num, by norm_num⟩
  · rw [hexact h₁ h₂]
    exact ⟨rfl, by omega⟩
  · rw [hexact h₁ (by omega)]
    omega

theorem keyLifeSpan_spec_witness :
    (mainDurations { MaxKeyAge := 90 }).keyLifeSpan = 90 * (24 * (3600 * 1000000000)) ∧
      (mainDurations { MaxKeyAge := 90 }).keyLifeSpan ≤ 100 * 365 * 24 * (3600 * 1000000000) ∧
      (mainDurations { MaxKeyAge := -1 }).keyLifeSpan = 100 * 365 * 24 * (3600 * 1000000000) :=
  ⟨((keyLifeSpan_spec { MaxKeyAge := 90 }).2.1 (by decide) (by decide)).1,
    (keyLifeSpan_spec { MaxKeyAge := 90 }).2.2 (by decide) (by decide),
    ((keyLifeSpan_spec { MaxKeyAge := -1 }).1 (by decide)).1⟩

/-- C9 (as stated) fails: with `MaxKeyAge = 106752` the multiplication wraps
around and the lifespan is negative, not 106752 days; with
`MaxKeyAge = 36501` the lifespan is longer than the sentinel a negative
`MaxKeyAge` gives. -/
theorem keyLifeSpan_exceeds_sentinel :
    (mainDurations { MaxKeyAge := 106752 }).keyLifeSpan < 0 ∧
    (mainDurations { MaxKeyAge := 106752 }).keyLifeSpan ≠ 106752 * (24 * (3600 * 1000000000)) ∧
    (mainDurations { MaxKeyAge := -1 }).keyLifeSpan <
      (mainDurations { MaxKeyAge := 36501 }).keyLifeSpan := by
  decide

end Curse

namespace Jinxlib

/-! ## The client requests -/

/-- C6 (as amended): `requestSSHCert` and `requestTLSCert` return status 1
with a non-nil error exactly when a local step fails (loading the key pair or
the CA file, or generating the CSR), and then no request has been sent; they
return status 2 with a non-nil error exactly when a request has been sent and
the connection or the reading of the response body fails; and whenever the
error is non-nil the body is nil and the status is 1 or 2. -/
theorem request_error_status (env : NetEnv) (conf : config) (pubKey : String) :
    (((∃ e, (requestSSHCert env conf pubKey).outcome = .returned none 1 (some e)) ↔
        (∃ e, env.loadX509KeyPair conf.SSLCertFile conf.SSLKeyFile = .error e) ∨
          (∃ e, env.readFile conf.SSLCAFile = .error e)) ∧
      ((∃ e, (requestSSHCert env conf pubKey).outcome = .returned none 1 (some e)) →
        (requestSSHCert env conf pubKey).sent = []) ∧
      ((∃ e, (requestSSHCert env conf pubKey).outcome = .returned none 2 (some e)) ↔
        ∃ client req, (requestSSHCert env conf pubKey).sent = [(client, req)] ∧
          ((∃ e, env.clientDo client req = .error e) ∨
            ∃ resp e, env.clientDo client req = .ok resp ∧ resp.Body = .error e)) ∧
      (∀ body status e,
        (requestSSHCert env conf pubKey).outcome = .returned body status (some e) →
        body = none ∧ (status = 1 ∨ status = 2))) ∧
    (((∃ e, (requestTLSCert env conf).outcome = .returned none 1 (some e)) ↔
        (∃ e, env.genTLSCSR conf = .error e)) ∧
      ((∃ e, (requestTLSCert env conf).outcome = .returned none 1 (some e)) →
        (requestTLSCert env conf).sent = []) ∧
      ((∃ e, (requestTLSCert env conf).outcome = .returned none 2 (some e)) ↔
        ∃ client req, (requestTLSCert env conf).sent = [(client, req)] ∧
          ((∃ e, env.clientDo client req = .error e) ∨
            ∃ resp e, env.clientDo client req = .ok resp ∧ resp.Body = .error e)) ∧
      (∀ body status e,
        (requestTLSCert env conf).outcome = .returned body status (some e) →
        body = none ∧ (status = 1 ∨ status = 2))) := by
  constructor
  · unfold requestSSHCert
    cases hkp : env.loadX509KeyPair conf.SSLCertFile conf.SSLKeyFile with
    | error e₁ => simp
    | ok keyPair =>
      cases hca : env.readFile conf.SSLCAFile with
      | error e₂ => simp
      | ok ca =>
        dsimp only
        cases hreq : env.newRequest "POST" conf.URLCurse (env.formEncode
            [("bastionIP", conf.BastionIP), ("cmd", conf.cmd), ("key", pubKey),
              ("remoteUser", conf.SSHUser), ("userIP", conf.userIP)]) with
        | error e₃ => simp
        | ok req₀ =>
          dsimp only
          split
          · rename_i e₄ hdo
            simp [hdo]
            exact ⟨_, _, ⟨rfl, rfl⟩, Or.inl ⟨e₄, hdo⟩⟩
          · rename_i resp hdo
            split
            · rename_i e₅ hbody
              simp [hdo, hbody]
              exact ⟨_, _, ⟨rfl, rfl⟩, Or.inr ⟨resp, hdo, e₅, hbody⟩⟩
            · rename_i respBody hbody
              simp [hdo, hbody]
  · unfold requestTLSCert
    cases hcsr : env.genTLSCSR conf with
    | error e₁ => simp
    | ok csrBytes =>
      dsimp only
      cases hreq : env.newRequest "POST" conf.URLAuth (env.formEncode
          [("csr", csrBytes), ("userIP", conf.userIP)]) with
      | error e₃ => simp
      | ok req₀ =>
        dsimp only
        split
        · rename_i e₄ hdo
          simp [hdo]
          exact ⟨_, _, ⟨rfl, rfl⟩, Or.inl ⟨e₄, hdo⟩⟩
        · rename_i resp hdo
          split
          · rename_i e₅ hbody
            simp [hdo, hbody]
            exact ⟨_, _, ⟨rfl, rfl⟩, Or.inr ⟨resp, hdo, e₅, hbody⟩⟩
          · rename_i respBody hbody
            simp [hdo, hbody]

theorem request_error_status_witness :
    (∃ e, (requestSSHCert
        { sampleNetEnv 200 with loadX509KeyPair := fun _ _ => .error "open client.crt: no such file" }
        { URLCurse := "https://curse/" } "ssh-ed25519 AAAA").outcome =
          .returned none 1 (some e)) ∧
      (requestSSHCert
        { sampleNetEnv 200 with loadX509KeyPair := fun _ _ => .error "open client.crt: no such file" }
        { URLCurse := "https://curse/" } "ssh-ed25519 AAAA").sent = [] :=
  have h := ((request_error_status
      { sampleNetEnv 200 with loadX509KeyPair := fun _ _ => .error "open client.crt: no such file" }
      { URLCurse := "https://curse/" } "ssh-ed25519 AAAA").1.1).mpr (Or.inl ⟨_, rfl⟩)
  ⟨h, (request_error_status
      { sampleNetEnv 200 with loadX509KeyPair := fun _ _ => .error "open client.crt: no such file" }
      { URLCurse := "https://curse/" } "ssh-ed25519 AAAA").1.2.1 h⟩

/-- C6 (as stated) fails: when every step succeeds and the server answers
with the status code 1, `requestSSHCert` returns status 1 with a nil error
although no local step has failed and the request has been sent; the same
holds for `requestTLSCert`. -/
theorem request_status_one_without_local_failure :
    (requestSSHCert (sampleNetEnv 1) { URLCurse := "https://curse/" } "ssh-ed25519 AAAA").outcome =
        .returned (some "cert") 1 none ∧
      (requestSSHCert (sampleNetEnv 1) { URLCurse := "https://curse/" } "ssh-ed25519 AAAA").sent ≠
        [] ∧
      (requestTLSCert (sampleNetEnv 1) { URLAuth := "https://curse/auth/" }).outcome =
        .returned (some "cert") 1 none ∧
      (requestTLSCert (sampleNetEnv 1) { URLAuth := "https://curse/auth/" }).sent ≠ [] := by
  decide

/-- C7 (as amended): `requestSSHCert` returns with a nil error exactly when
its local steps succeed (the key pair and the CA file load), the request is
built, the server answers the request sent and the response body is read, and
then it returns that body and the status code of that response;
`requestTLSCert` does so exactly when the CSR is generated, the request is
built, the server answers the request sent and the response body is read. -/
theorem request_success_status (env : NetEnv) (conf : config) (pubKey : String) :
    (∀ body status,
      (requestSSHCert env conf pubKey).outcome = .returned body status none ↔
        ∃ keyPair ca req resp respBody,
          env.loadX509KeyPair conf.SSLCertFile conf.SSLKeyFile = .ok keyPair ∧
          env.readFile conf.SSLCAFile = .ok ca ∧
          env.newRequest "POST" conf.URLCurse (env.formEncode
            [("bastionIP", conf.BastionIP), ("cmd", conf.cmd), ("key", pubKey),
              ("remoteUser", conf.SSHUser), ("userIP", conf.userIP)]) = .ok req ∧
          env.clientDo
            { certificates := [keyPair], rootCAs := [ca],
              timeout := Curse.wrap64 (conf.Timeout * Curse.Second) }
            { req with
              header := req.header ++
                [("Content-Type", "application/x-www-form-urlencoded")] } = .ok resp ∧
          resp.Body = .ok respBody ∧
          body = some respBody ∧ status = resp.StatusCode) ∧
    (∀ body status,
      (requestTLSCert env conf).outcome = .returned body status none ↔
        ∃ csrBytes req resp respBody,
          env.genTLSCSR conf = .ok csrBytes ∧
          env.newRequest "POST" conf.URLAuth (env.formEncode
            [("csr", csrBytes), ("userIP", conf.userIP)]) = .ok req ∧
          env.clientDo
            { insecureSkipVerify := conf.Insecure,
              timeout := Curse.wrap64 (conf.Timeout * Curse.Second) }
            { req with
              header := req.header ++
                [("Content-Type", "application/x-www-form-urlencoded")]
              basicAuth := some (conf.userName, conf.userPass) } = .ok resp ∧
          resp.Body = .ok respBody ∧
          body = some respBody ∧ status = resp.StatusCode) := by
  constructor
  · intro body status
    unfold requestSSHCert
    constructor
    · intro h
      split at h
      · simp at h
      · rename_i keyPair hkp
        split at h
        · simp at h
        · rename_i ca hca
          dsimp only at h
          split at h
          · simp at h
          · rename_i req hreq
            split at h
            · simp at h
            · rename_i resp hdo
              split at h
              · simp at h
              · rename_i respBody hbody
                simp only [Outcome.returned.injEq, and_true] at h
                exact ⟨keyPair, ca, req, resp, respBody, hkp, hca, hreq, hdo, hbody,
                  h.1.symm, h.2.symm⟩
    · rintro ⟨keyPair, ca, req, resp, respBody, hkp, hca, hreq, hdo, hbody, rfl, rfl⟩
      simp [hkp, hca, hreq, hdo, hbody]
  · intro body status
    unfold requestTLSCert
    constructor
    · intro h
      split at h
      · simp at h
      · rename_i csrBytes hcsr
        dsimp only at h
        split at h
        · simp at h
        · rename_i req hreq
          split at h
          · simp at h
          · rename_i resp hdo
            split at h
            · simp at h
            · rename_i respBody hbody
              simp only [Outcome.returned.injEq, and_true] at h
              exact ⟨csrBytes, req, resp, respBody, hcsr, hreq, hdo, hbody,
                h.1.symm, h.2.symm⟩
    · rintro ⟨csrBytes, req, resp, respBody, hcsr, hreq, hdo, hbody, rfl, rfl⟩
      simp [hcsr, hreq, hdo, hbody]

theorem request_success_status_witness :
    (requestSSHCert (sampleNetEnv 200)
        { URLCurse := "https://curse/", URLAuth := "https://curse/auth/" }
        "ssh-ed25519 AAAA").outcome = .returned (some "cert") 200 none ∧
      (requestTLSCert (sampleNetEnv 200)
        { URLCurse := "https://curse/", URLAuth := "https://curse/auth/" }).outcome =
        .returned (some "cert") 200 none :=
  ⟨((request_success_status (sampleNetEnv 200)
      { URLCurse := "https://curse/", URLAuth := "https://curse/auth/" }
      "ssh-ed25519 AAAA").1 (some "cert") 200).mpr
      ⟨_, _, _, _, _, rfl, rfl, rfl, rfl, rfl, rfl, rfl⟩,
    ((request_success_status (sampleNetEnv 200)
      { URLCurse := "https://curse/", URLAuth := "https://curse/auth/" }
      "ssh-ed25519 AAAA").2 (some "cert") 200).mpr
      ⟨_, _, _, _, rfl, rfl, rfl, rfl, rfl, rfl⟩⟩

/-- C7 (as stated) fails: when every step succeeds and the server answers
with the status code 200, the status returned is 200, not 0. -/
theorem request_success_status_not_zero :
    (requestSSHCert (sampleNetEnv 200) { URLCurse := "https://curse/" }
        "ssh-ed25519 AAAA").outcome = .returned (some "cert") 200 none ∧
      (requestTLSCert (sampleNetEnv 200) { URLAuth := "https://curse/auth/" }).outcome =
        .returned (some "cert") 200 none ∧
      (200 : Int) ≠ 0 := by
  decide

/-- C10 fails on the code: with a server URL that `http.NewRequest` cannot
parse, `requestSSHCert` and `requestTLSCert` do not return: the nil request is
dereferenced. -/
theorem request_malformed_url_panics :
    (sampleNetEnv 200).newRequest "POST" "://curse" "" =
        .error "parse \"://curse\": missing protocol scheme" ∧
      requestSSHCert (sampleNetEnv 200) { URLCurse := "://curse" } "ssh-ed25519 AAAA" =
        ⟨.nilDereference, []⟩ ∧
      requestTLSCert (sampleNetEnv 200) { URLAuth := "://curse" } = ⟨.nilDereference, []⟩ := by
  refine ⟨rfl, by decide, by decide⟩

end Jinxlib
